import Mathlib

/-!
Shallow embedding of `src/github_comments/pr_comments.py`.

The program fetches review-thread comments of one GitHub pull request
through a fixed GraphQL query, flattens and filters them, and renders a
table.  The embedding models:

* the JSON records the fixed GraphQL query produces (shapes follow the
  query text at lines 54-102 of the source: an `author` object carrying a
  `login`, an `originalCommit` object carrying `oid` and `message`, a
  review thread carrying `isResolved` and its comment nodes, and the
  `reviewThreads.pageInfo` with `endCursor`/`hasNextPage`);
* `GitHubPRCommentsClient._parse_response` (lines 129-149) as a pure
  function returning `Except` — a Python exception becomes `.error`;
* the pagination loop of `GitHubPRCommentsClient.get_pr_comments`
  (lines 104-127), with the remote modelled as the finite list of page
  responses it returns to the successive HTTP requests, together with the
  number of requests issued;
* the commit cell computation of `CommentsDisplay.display_comments`
  (lines 169-174) and `Comment.short_commit_id` (lines 28-30);
* the `GH_TOKEN` check of `main` (lines 218-233).
-/

namespace PRComments

/-- The `author` object of the GraphQL query: `author { login }`. -/
structure Author where
  login : String
  deriving Repr, DecidableEq

/-- The `originalCommit` object of the GraphQL query:
`originalCommit { oid message ... }`.  The query always requests `oid` and
`message` together, and on the wire a non-null commit object carries both
(they are non-nullable fields of a commit), so the object is modelled with
both fields. -/
structure OriginalCommit where
  oid : String
  message : String
  deriving Repr, DecidableEq

/-- State of the `"originalCommit"` key in one comment record, as seen by
`comment.get("originalCommit", {})` at line 138 of the source: the key can
be missing from the dict, present with JSON `null`, or present with an
object. -/
inductive OriginalCommitField where
  | absent : OriginalCommitField
  | null : OriginalCommitField
  | obj : OriginalCommit → OriginalCommitField
  deriving Repr, DecidableEq

/-- One node of `reviewThreads.nodes[].comments.nodes` in the GraphQL
response.  `author := none` models a JSON `null` author (deleted account);
the remaining scalar fields are always present per the query shape. -/
structure CommentRecord where
  author : Option Author
  body : String
  createdAt : String
  url : String
  originalCommit : OriginalCommitField
  deriving Repr, DecidableEq

/-- One node of the top-level `comments.nodes` collection on the pull
request (fetched by the query at lines 58-71, never read by the parser). -/
structure TopCommentRecord where
  author : Option Author
  body : String
  createdAt : String
  url : String
  deriving Repr, DecidableEq

/-- One node of `reviewThreads.nodes`: a resolution flag and the thread's
comment nodes. -/
structure ReviewThread where
  isResolved : Bool
  comments : List CommentRecord
  deriving Repr, DecidableEq

/-- `reviewThreads.pageInfo`: `endCursor` is a nullable string. -/
structure PageInfo where
  endCursor : Option String
  hasNextPage : Bool
  deriving Repr, DecidableEq

/-- The `reviewThreads` collection of one response page. -/
structure ReviewThreads where
  nodes : List ReviewThread
  pageInfo : PageInfo
  deriving Repr, DecidableEq

/-- `data.repository.pullRequest` of one response page: the top-level
comment collection plus the review-thread collection. -/
structure PRData where
  comments : List TopCommentRecord
  reviewThreads : ReviewThreads
  deriving Repr, DecidableEq

/-- The `Comment` dataclass (lines 14-21 of the source).  `commit_id` and
`commit_message` default to `None`. -/
structure Comment where
  author : String
  body : String
  created_at : String
  url : String
  commit_id : Option String := none
  commit_message : Option String := none
  deriving Repr, DecidableEq

/-- `Comment.short_commit_id` (lines 28-30):
`self.commit_id[:7] if self.commit_id else None`.  Python slices strings
by code point, so the slice is modelled as `take 7` on the character list;
an empty string is falsy in Python, hence maps to `none`. -/
def Comment.short_commit_id (c : Comment) : Option String :=
  match c.commit_id with
  | some cid => if cid = "" then none else some (String.mk (cid.data.take 7))
  | none => none

/-- The conditional expression of line 141:
`comment["author"]["login"] if comment["author"] else "unknown"`. -/
def authorOf (comment : CommentRecord) : String :=
  match comment.author with
  | some a => a.login
  | none => "unknown"

/-- Construction of one `Comment` from one comment record
(lines 137-147).  `comment.get("originalCommit", {})` yields the empty
dict when the key is missing (both subsequent `.get` lookups return
`None`), the object when one is present, and Python `None` when the key
holds JSON `null` — in which case `commit_data.get("oid")` raises
`AttributeError`, modelled as `.error`. -/
def parseComment (comment : CommentRecord) : Except String Comment :=
  match comment.originalCommit with
  | .null => Except.error "AttributeError: NoneType object has no attribute get"
  | .absent =>
      Except.ok { author := authorOf comment, body := comment.body,
                  created_at := comment.createdAt, url := comment.url }
  | .obj cd =>
      Except.ok { author := authorOf comment, body := comment.body,
                  created_at := comment.createdAt, url := comment.url,
                  commit_id := some cd.oid, commit_message := some cd.message }

/-- The inner loop of `_parse_response` (lines 137-147) over the comment
nodes of one thread, in order; the first raising record aborts the whole
parse, as a Python exception would. -/
def parseCommentList : List CommentRecord → Except String (List Comment)
  | [] => Except.ok []
  | r :: rs =>
      match parseComment r with
      | Except.error e => Except.error e
      | Except.ok c =>
          match parseCommentList rs with
          | Except.error e => Except.error e
          | Except.ok cs => Except.ok (c :: cs)

/-- The skip condition of lines 134-135:
`if filter_type == 'unresolved' and thread["isResolved"]: continue`. -/
def skipThread (filter_type : String) (t : ReviewThread) : Bool :=
  (filter_type == "unresolved") && t.isResolved

/-- The outer loop of `_parse_response` (lines 133-147) over the thread
nodes of one page, in order, skipping threads per `skipThread`. -/
def parseThreads (filter_type : String) : List ReviewThread → Except String (List Comment)
  | [] => Except.ok []
  | t :: ts =>
      if skipThread filter_type t then parseThreads filter_type ts
      else
        match parseCommentList t.comments with
        | Except.error e => Except.error e
        | Except.ok cs =>
            match parseThreads filter_type ts with
            | Except.error e => Except.error e
            | Except.ok rest => Except.ok (cs ++ rest)

/-- `GitHubPRCommentsClient._parse_response` (lines 129-149). -/
def parse_response (pr_data : PRData) (filter_type : String) : Except String (List Comment) :=
  parseThreads filter_type pr_data.reviewThreads.nodes

/-- The cursor update of line 122:
`review_cursor = review_page_info["endCursor"] if review_page_info["hasNextPage"] else None`. -/
def review_cursor (pr_data : PRData) : Option String :=
  if pr_data.reviewThreads.pageInfo.hasNextPage
  then pr_data.reviewThreads.pageInfo.endCursor else none

/-- Python truthiness of the cursor value tested by
`if not review_cursor: break` at line 124: `None` and the empty string are
falsy, every other string is truthy. -/
def truthy : Option String → Bool
  | none => false
  | some s => s != ""

/-- The `while True` loop of `get_pr_comments` (lines 107-127).  The
remote is modelled as the list of page responses it hands to the
successive requests; the returned `Nat` counts the requests issued (one
per loop iteration).  Per lines 121-124 the loop continues exactly when
`review_cursor` is truthy in Python.  An exhausted response list while
the loop still wants a page is an unanswered request, an `.error`. -/
def fetchLoop (filter_type : String) : List PRData → Except String (List Comment) × Nat
  | [] => (Except.error "no scripted response for the issued request", 1)
  | pr_data :: rest =>
      match parse_response pr_data filter_type with
      | Except.error e => (Except.error e, 1)
      | Except.ok page_comments =>
          if truthy (review_cursor pr_data) then
            match fetchLoop filter_type rest with
            | (Except.ok more, n) => (Except.ok (page_comments ++ more), n + 1)
            | (Except.error e, n) => (Except.error e, n + 1)
          else (Except.ok page_comments, 1)

/-- `GitHubPRCommentsClient.get_pr_comments` (lines 53-127), with the
remote's successive page responses as input. -/
def get_pr_comments (responses : List PRData) (filter_type : String) :
    Except String (List Comment) × Nat :=
  fetchLoop filter_type responses

/-- The literal message of the `ValueError` raised at lines 223-226. -/
def ghTokenError : String :=
  "GH_TOKEN environment variable not set. Please set it with your GitHub Personal Access Token."

/-- `main` (lines 218-233), reduced to the data it decides on: the
`GH_TOKEN` lookup result and the remote's page responses.  Per line 222,
`if not github_token` treats both an unset variable and an empty string as
missing and raises before any client is built, so zero requests are
issued; otherwise the fetch runs. -/
def main_run (gh_token : Option String) (responses : List PRData) (filter_type : String) :
    Except String (List Comment) × Nat :=
  match gh_token with
  | none => (Except.error ghTokenError, 0)
  | some tok =>
      if tok = "" then (Except.error ghTokenError, 0)
      else get_pr_comments responses filter_type

/-- The first line of the commit message as displayed by
`display_comments` (line 171):
`commit_message.split('\n')[0] if commit_message else 'No commit message'`.
`split('\n')[0]` is the prefix before the first newline; an empty message
is falsy. -/
def displayedCommitMsg (c : Comment) : String :=
  match c.commit_message with
  | some m =>
      if m = "" then "No commit message"
      else String.mk (m.data.takeWhile (fun ch => ch != Char.ofNat 10))
  | none => "No commit message"

/-- The commit cell of `display_comments` (lines 170-174):
`f"{short_commit_id}\n{commit_msg}"` when `commit_id` is truthy, else
`"N/A"`. -/
def commit_info (c : Comment) : String :=
  match c.commit_id with
  | some cid =>
      if cid = "" then "N/A"
      else (c.short_commit_id.getD "") ++ String.mk [Char.ofNat 10] ++ displayedCommitMsg c
  | none => "N/A"

end PRComments

namespace PRComments

/-! ### Concrete data used by closed theorems and witnesses -/

/-- Comment record of the resolved example thread: one comment by
"alice", no commit anchor. -/
def aliceRecord : CommentRecord :=
  { author := some { login := "alice" }, body := "looks wrong",
    createdAt := "2024-01-01T00:00:00Z", url := "https://example.test/a1",
    originalCommit := OriginalCommitField.absent }

/-- Comment record of the unresolved example thread: one comment by "bob"
anchored to commit `abc1234567` with message "fix bug\nmore detail". -/
def bobRecord : CommentRecord :=
  { author := some { login := "bob" }, body := "fixed here",
    createdAt := "2024-01-02T00:00:00Z", url := "https://example.test/b1",
    originalCommit := OriginalCommitField.obj
      { oid := "abc1234567", message := "fix bug\nmore detail" } }

/-- Thread A of the end-to-end example: resolved, one comment by "alice". -/
def threadA : ReviewThread := { isResolved := true, comments := [aliceRecord] }

/-- Thread B of the end-to-end example: unresolved, one comment by "bob". -/
def threadB : ReviewThread := { isResolved := false, comments := [bobRecord] }

/-- Page info of a final page: `hasNextPage = false`. -/
def lastPageInfo : PageInfo := { endCursor := none, hasNextPage := false }

/-- The one-page input of the end-to-end example. -/
def examplePage : PRData :=
  { comments := [], reviewThreads := { nodes := [threadA, threadB], pageInfo := lastPageInfo } }

/-- The `Comment` value the flattener builds from `aliceRecord`. -/
def aliceComment : Comment :=
  { author := "alice", body := "looks wrong", created_at := "2024-01-01T00:00:00Z",
    url := "https://example.test/a1" }

/-- The `Comment` value the flattener builds from `bobRecord`. -/
def bobComment : Comment :=
  { author := "bob", body := "fixed here", created_at := "2024-01-02T00:00:00Z",
    url := "https://example.test/b1", commit_id := some "abc1234567",
    commit_message := some "fix bug\nmore detail" }

/-- A comment record with a null author object (deleted account). -/
def anonRecord : CommentRecord :=
  { author := none, body := "who wrote this", createdAt := "2024-01-03T00:00:00Z",
    url := "https://example.test/c1", originalCommit := OriginalCommitField.absent }

/-- The `Comment` value the flattener builds from `anonRecord`. -/
def anonComment : Comment :=
  { author := "unknown", body := "who wrote this", created_at := "2024-01-03T00:00:00Z",
    url := "https://example.test/c1" }

/-- A comment record whose `"originalCommit"` key is present with JSON
`null`. -/
def nullCommitRecord : CommentRecord :=
  { author := some { login := "carol" }, body := "stale anchor",
    createdAt := "2024-01-04T00:00:00Z", url := "https://example.test/d1",
    originalCommit := OriginalCommitField.null }

/-- A resolved thread holding the null-`originalCommit` record. -/
def resolvedNullThread : ReviewThread :=
  { isResolved := true, comments := [nullCommitRecord] }

/-- A one-page input whose only thread is resolved and holds the
null-`originalCommit` record. -/
def resolvedNullPage : PRData :=
  { comments := [], reviewThreads := { nodes := [resolvedNullThread], pageInfo := lastPageInfo } }

/-- An unresolved thread holding the null-`originalCommit` record. -/
def unresolvedNullThread : ReviewThread :=
  { isResolved := false, comments := [nullCommitRecord] }

/-- A one-page input whose only thread is unresolved and holds the
null-`originalCommit` record. -/
def unresolvedNullPage : PRData :=
  { comments := [], reviewThreads := { nodes := [unresolvedNullThread], pageInfo := lastPageInfo } }

/-- A page reporting `hasNextPage = true` while its `endCursor` is JSON
`null`. -/
def badCursorPage : PRData :=
  { comments := [],
    reviewThreads := { nodes := [], pageInfo := { endCursor := none, hasNextPage := true } } }

/-- A non-final page with a well-formed cursor. -/
def cursorPage : PRData :=
  { comments := [],
    reviewThreads := { nodes := [], pageInfo := { endCursor := some "cursor1", hasNextPage := true } } }

/-- A final page with no threads. -/
def finalPage : PRData :=
  { comments := [], reviewThreads := { nodes := [], pageInfo := lastPageInfo } }

/-! ### Claims provable by direct evaluation -/

/-- Claim C7: when the `GH_TOKEN` environment variable is unset (`none`)
or empty (`some ""`), `main` raises the configuration error and the
number of HTTP requests issued is zero, whatever pages the remote would
have served and whatever the filter is. -/
theorem C7_missing_token (responses : List PRData) (filter_type : String) :
    main_run none responses filter_type = (Except.error ghTokenError, 0) ∧
    main_run (some "") responses filter_type = (Except.error ghTokenError, 0) :=
  ⟨rfl, rfl⟩

/-- Claim C8: on the one-page input with resolved thread A (one comment by
"alice") and unresolved thread B (one comment by "bob" anchored to commit
`abc1234567` with message "fix bug\nmore detail"), flattening with
`filter_mode = unresolved` yields exactly bob's comment, whose short
commit id is "abc1234" and whose displayed commit line is "fix bug". -/
theorem C8_end_to_end :
    parse_response examplePage "unresolved" = Except.ok [bobComment] ∧
    bobComment.short_commit_id = some "abc1234" ∧
    displayedCommitMsg bobComment = "fix bug" ∧
    commit_info bobComment = "abc1234\nfix bug" :=
  ⟨rfl, rfl, rfl, rfl⟩

/-- Claim C3 counterexample: a two-page sequence whose first page reports
`hasNextPage = true` (with a null `endCursor`) and whose second page
reports `hasNextPage = false`.  The claim demands exactly two requests;
the code stops after one, because `review_cursor` is `None` and
`if not review_cursor: break` fires despite `hasNextPage` being true. -/
theorem C3_counterexample :
    badCursorPage.reviewThreads.pageInfo.hasNextPage = true ∧
    finalPage.reviewThreads.pageInfo.hasNextPage = false ∧
    get_pr_comments [badCursorPage, finalPage] "unresolved" = (Except.ok [], 1) :=
  ⟨rfl, rfl, rfl⟩

/-- Claim C9 counterexample: a page containing a comment record whose
`"originalCommit"` key is present with JSON `null`, inside a resolved
thread.  With `filter_type = "unresolved"` the thread is skipped before
the record is touched, so the flattener returns a comment sequence
(`[]`) instead of raising. -/
theorem C9_counterexample :
    resolvedNullThread.comments = [nullCommitRecord] ∧
    nullCommitRecord.originalCommit = OriginalCommitField.null ∧
    resolvedNullPage.reviewThreads.nodes = [resolvedNullThread] ∧
    parse_response resolvedNullPage "unresolved" = Except.ok [] :=
  ⟨rfl, rfl, rfl, rfl⟩

end PRComments

namespace PRComments

/-! ### Spec-side order description and structural lemmas -/

/-- Spec-side description of which comment records one page contributes,
in thread-then-comment order, following the spec's words: threads whose
`isResolved` is filtered out are dropped whole, the remaining threads
contribute their comment nodes in order. -/
def includedComments (filter_type : String) (ts : List ReviewThread) : List CommentRecord :=
  (ts.filter (fun t => !(skipThread filter_type t))).flatMap (fun t => t.comments)

/-- Spec-side description of the full fetch order, following the spec's
words for the order-preservation property: pages in fetch order, threads
in page order, comments in thread order. -/
def specFlattenOrder (filter_type : String) (pages : List PRData) : List CommentRecord :=
  pages.flatMap (fun p => includedComments filter_type p.reviewThreads.nodes)

theorem parseCommentList_append {l1 l2 : List CommentRecord} {o1 o2 : List Comment}
    (h1 : parseCommentList l1 = Except.ok o1) (h2 : parseCommentList l2 = Except.ok o2) :
    parseCommentList (l1 ++ l2) = Except.ok (o1 ++ o2) := by
  induction l1 generalizing o1 with
  | nil =>
    simp only [parseCommentList] at h1
    cases h1
    simpa using h2
  | cons r rs ih =>
    rw [parseCommentList] at h1
    cases hr : parseComment r with
    | error e => rw [hr] at h1; cases h1
    | ok c =>
      rw [hr] at h1
      cases hrs : parseCommentList rs with
      | error e => rw [hrs] at h1; cases h1
      | ok cs =>
        rw [hrs] at h1
        cases h1
        rw [List.cons_append, parseCommentList, hr, ih hrs]
        rfl

/-- Every page parse is the in-order parse of the records the spec says
are included. -/
theorem parseThreads_char {filter_type : String} {ts : List ReviewThread} {cs : List Comment}
    (h : parseThreads filter_type ts = Except.ok cs) :
    parseCommentList (includedComments filter_type ts) = Except.ok cs := by
  induction ts generalizing cs with
  | nil =>
    simp only [parseThreads] at h
    cases h
    rfl
  | cons t ts ih =>
    rw [parseThreads] at h
    cases hs : skipThread filter_type t with
    | true =>
      rw [hs, if_pos rfl] at h
      have := ih h
      simpa [includedComments, hs] using this
    | false =>
      rw [hs] at h
      rw [if_neg (by simp)] at h
      cases h1 : parseCommentList t.comments with
      | error e => rw [h1] at h; simp at h
      | ok cs0 =>
        rw [h1] at h
        cases h2 : parseThreads filter_type ts with
        | error e => rw [h2] at h; simp at h
        | ok rest =>
          rw [h2] at h
          cases h
          have hrest := ih h2
          have happ := parseCommentList_append h1 hrest
          simpa [includedComments, hs] using happ

theorem parseCommentList_mem {l : List CommentRecord} {out : List Comment}
    (h : parseCommentList l = Except.ok out) {c : Comment} (hc : c ∈ out) :
    ∃ r, r ∈ l ∧ parseComment r = Except.ok c := by
  induction l generalizing out with
  | nil =>
    simp only [parseCommentList] at h
    cases h
    simp at hc
  | cons r rs ih =>
    rw [parseCommentList] at h
    cases h1 : parseComment r with
    | error e => rw [h1] at h; cases h
    | ok c0 =>
      rw [h1] at h
      cases h2 : parseCommentList rs with
      | error e => rw [h2] at h; cases h
      | ok cs0 =>
        rw [h2] at h
        cases h
        rcases List.mem_cons.mp hc with rfl | hmem
        · exact ⟨r, List.mem_cons_self r rs, h1⟩
        · obtain ⟨r2, hr2, hp2⟩ := ih h2 hmem
          exact ⟨r2, List.mem_cons_of_mem r hr2, hp2⟩

theorem parseCommentList_mem_of_mem {l : List CommentRecord} {out : List Comment}
    (h : parseCommentList l = Except.ok out) {r : CommentRecord} (hr : r ∈ l) :
    ∃ c, c ∈ out ∧ parseComment r = Except.ok c := by
  induction l generalizing out with
  | nil => simp at hr
  | cons r0 rs ih =>
    rw [parseCommentList] at h
    cases h1 : parseComment r0 with
    | error e => rw [h1] at h; cases h
    | ok c0 =>
      rw [h1] at h
      cases h2 : parseCommentList rs with
      | error e => rw [h2] at h; cases h
      | ok cs0 =>
        rw [h2] at h
        cases h
        rcases List.mem_cons.mp hr with rfl | hmem
        · exact ⟨c0, List.mem_cons_self c0 cs0, h1⟩
        · obtain ⟨c, hc, hp⟩ := ih h2 hmem
          exact ⟨c, List.mem_cons_of_mem c0 hc, hp⟩

theorem parseCommentList_error {l : List CommentRecord} {r : CommentRecord}
    (hr : r ∈ l) {e : String} (he : parseComment r = Except.error e) :
    ∃ e2, parseCommentList l = Except.error e2 := by
  induction l with
  | nil => simp at hr
  | cons r0 rs ih =>
    rcases List.mem_cons.mp hr with rfl | hmem
    · exact ⟨e, by rw [parseCommentList, he]⟩
    · cases h1 : parseComment r0 with
      | error e0 => exact ⟨e0, by rw [parseCommentList, h1]⟩
      | ok c0 =>
        obtain ⟨e2, h2⟩ := ih hmem
        exact ⟨e2, by rw [parseCommentList, h1, h2]⟩

theorem parseThreads_error {filter_type : String} {ts : List ReviewThread} {t : ReviewThread}
    (ht : t ∈ ts) (hs : skipThread filter_type t = false) {e : String}
    (he : parseCommentList t.comments = Except.error e) :
    ∃ e2, parseThreads filter_type ts = Except.error e2 := by
  induction ts with
  | nil => simp at ht
  | cons t0 ts ih =>
    rcases List.mem_cons.mp ht with rfl | hmem
    · exact ⟨e, by rw [parseThreads, hs, if_neg (by simp), he]⟩
    · cases hs0 : skipThread filter_type t0 with
      | true =>
        obtain ⟨e2, h2⟩ := ih hmem
        exact ⟨e2, by rw [parseThreads, hs0, if_pos rfl]; exact h2⟩
      | false =>
        cases h1 : parseCommentList t0.comments with
        | error e0 => exact ⟨e0, by rw [parseThreads, hs0, if_neg (by simp), h1]⟩
        | ok cs0 =>
          obtain ⟨e2, h2⟩ := ih hmem
          exact ⟨e2, by rw [parseThreads, hs0, if_neg (by simp), h1, h2]⟩

/-- Provenance: every comment in a successful page parse was built by
`parseComment` from a record of a thread the filter kept. -/
theorem parse_response_mem {p : PRData} {filter_type : String} {cs : List Comment}
    (h : parse_response p filter_type = Except.ok cs) {c : Comment} (hc : c ∈ cs) :
    ∃ t, t ∈ p.reviewThreads.nodes ∧ skipThread filter_type t = false ∧
      ∃ r, r ∈ t.comments ∧ parseComment r = Except.ok c := by
  have hchar := parseThreads_char h
  obtain ⟨r, hr, hpc⟩ := parseCommentList_mem hchar hc
  rw [includedComments] at hr
  obtain ⟨t, ht, hrt⟩ := List.mem_flatMap.mp hr
  have hf := List.mem_filter.mp ht
  refine ⟨t, hf.1, ?_, r, hrt, hpc⟩
  simpa using hf.2

/-- Inclusion: every record of a kept thread shows up, parsed, in a
successful page parse. -/
theorem parse_response_mem_of_included {p : PRData} {filter_type : String} {cs : List Comment}
    (h : parse_response p filter_type = Except.ok cs) {t : ReviewThread}
    (ht : t ∈ p.reviewThreads.nodes) (hs : skipThread filter_type t = false)
    {r : CommentRecord} (hr : r ∈ t.comments) :
    ∃ c, c ∈ cs ∧ parseComment r = Except.ok c := by
  have hchar := parseThreads_char h
  apply parseCommentList_mem_of_mem hchar
  rw [includedComments]
  exact List.mem_flatMap.mpr ⟨t, List.mem_filter.mpr ⟨ht, by simp [hs]⟩, hr⟩

end PRComments

namespace PRComments

/-- Characterization of the pagination loop on success: the returned
sequence is the in-order parse of the records of the pages actually
fetched (the first `n` scripted responses), pages in fetch order, threads
in page order, comments in thread order. -/
theorem fetchLoop_stop {filter_type : String} {p : PRData} (rest : List PRData)
    {pc : List Comment} (hp : parse_response p filter_type = Except.ok pc)
    (ht : truthy (review_cursor p) = false) :
    fetchLoop filter_type (p :: rest) = (Except.ok pc, 1) := by
  rw [fetchLoop, hp, ht]
  rfl

theorem fetchLoop_continue_ok {filter_type : String} {p : PRData} {rest : List PRData}
    {pc more : List Comment} {n : Nat} (hp : parse_response p filter_type = Except.ok pc)
    (ht : truthy (review_cursor p) = true) (hrest : fetchLoop filter_type rest = (Except.ok more, n)) :
    fetchLoop filter_type (p :: rest) = (Except.ok (pc ++ more), n + 1) := by
  rw [fetchLoop, hp, ht, hrest]
  rfl

theorem get_pr_comments_char {pages : List PRData} {filter_type : String} {cs : List Comment}
    {n : Nat} (h : get_pr_comments pages filter_type = (Except.ok cs, n)) :
    parseCommentList (specFlattenOrder filter_type (pages.take n)) = Except.ok cs := by
  induction pages generalizing cs n with
  | nil =>
    rw [get_pr_comments, fetchLoop] at h
    cases h
  | cons p rest ih =>
    cases h1 : parse_response p filter_type with
    | error e =>
      rw [get_pr_comments, fetchLoop, h1] at h
      cases h
    | ok cs0 =>
      have hfirst : parseCommentList (includedComments filter_type p.reviewThreads.nodes) =
          Except.ok cs0 := parseThreads_char h1
      cases htr : truthy (review_cursor p) with
      | false =>
        rw [get_pr_comments, fetchLoop_stop rest h1 htr] at h
        cases h
        simpa [specFlattenOrder] using hfirst
      | true =>
        rcases hfl : fetchLoop filter_type rest with ⟨res, m⟩
        cases res with
        | error e =>
          rw [get_pr_comments, fetchLoop, h1, htr, hfl] at h
          simp at h
        | ok more =>
          rw [get_pr_comments, fetchLoop_continue_ok h1 htr hfl] at h
          have h2 : cs0 ++ more = cs ∧ m + 1 = n := by
            constructor
            · exact Except.ok.inj (Prod.mk.inj h).1
            · exact (Prod.mk.inj h).2
          obtain ⟨hcs, hn⟩ := h2
          subst hcs
          subst hn
          have hrest := ih (by rw [get_pr_comments, hfl])
          rw [List.take_succ_cons]
          simp only [specFlattenOrder, List.flatMap_cons] at hrest ⊢
          exact parseCommentList_append hfirst hrest
end PRComments

namespace PRComments

/-! ### Claims about the flattener and the loop -/

/-- Claim C1: with `filter_mode = unresolved` every comment of the
flattened output originates (via `parseComment`) in a thread whose
`isResolved` flag is false — so no comment of a resolved thread appears;
with `filter_mode = all` every comment record of every thread of the page
appears, parsed, in the output. -/
theorem C1_filter_correctness (p : PRData) :
    (∀ cs c, parse_response p "unresolved" = Except.ok cs → c ∈ cs →
      ∃ t, t ∈ p.reviewThreads.nodes ∧ t.isResolved = false ∧
        ∃ r, r ∈ t.comments ∧ parseComment r = Except.ok c) ∧
    (∀ cs t r, parse_response p "all" = Except.ok cs → t ∈ p.reviewThreads.nodes →
      r ∈ t.comments → ∃ c, c ∈ cs ∧ parseComment r = Except.ok c) := by
  constructor
  · intro cs c h hc
    obtain ⟨t, ht, hskip, r, hr, hpc⟩ := parse_response_mem h hc
    refine ⟨t, ht, ?_, r, hr, hpc⟩
    simpa [skipThread] using hskip
  · intro cs t r h ht hr
    refine parse_response_mem_of_included h ht ?_ hr
    have hb : (("all" : String) == "unresolved") = false := by decide
    simp [skipThread, hb]

/-- Witness for C1 on the end-to-end example page. -/
theorem C1_witness :
    (∃ t, t ∈ examplePage.reviewThreads.nodes ∧ t.isResolved = false ∧
      ∃ r, r ∈ t.comments ∧ parseComment r = Except.ok bobComment) ∧
    (∃ c, c ∈ [aliceComment, bobComment] ∧ parseComment bobRecord = Except.ok c) := by
  constructor
  · exact (C1_filter_correctness examplePage).1 [bobComment] bobComment rfl (by decide)
  · exact (C1_filter_correctness examplePage).2 [aliceComment, bobComment] threadB bobRecord
      rfl (by decide) (by decide)

/-- Claim C2: on every `Comment` the flattener produces, `commit_id` and
`commit_message` are both present or both absent; the pair is copied from
the original-commit object when the record carries one and left absent
when the key is missing. -/
theorem C2_commit_pairing :
    (∀ p filter_type cs, parse_response p filter_type = Except.ok cs → ∀ c, c ∈ cs →
      (c.commit_id.isSome ↔ c.commit_message.isSome)) ∧
    (∀ r c, parseComment r = Except.ok c →
      (∀ oc, r.originalCommit = OriginalCommitField.obj oc →
        c.commit_id = some oc.oid ∧ c.commit_message = some oc.message) ∧
      (r.originalCommit = OriginalCommitField.absent →
        c.commit_id = none ∧ c.commit_message = none)) := by
  have hpair : ∀ r c, parseComment r = Except.ok c →
      (c.commit_id.isSome ↔ c.commit_message.isSome) := by
    intro r c h
    unfold parseComment at h
    cases hoc : r.originalCommit with
    | null => rw [hoc] at h; cases h
    | absent => rw [hoc] at h; cases h; simp
    | obj oc => rw [hoc] at h; cases h; simp
  refine ⟨?_, ?_⟩
  · intro p ft cs h c hc
    obtain ⟨t, ht, hs, r, hr, hpc⟩ := parse_response_mem h hc
    exact hpair r c hpc
  · intro r c h
    constructor
    · intro oc hoc
      unfold parseComment at h
      rw [hoc] at h
      cases h
      exact ⟨rfl, rfl⟩
    · intro hoc
      unfold parseComment at h
      rw [hoc] at h
      cases h
      exact ⟨rfl, rfl⟩

/-- Witness for C2 on bob's comment (commit object present) and the
anonymous comment (commit key absent). -/
theorem C2_witness :
    (bobComment.commit_id.isSome ↔ bobComment.commit_message.isSome) ∧
    (bobComment.commit_id = some "abc1234567" ∧
      bobComment.commit_message = some "fix bug\nmore detail") ∧
    (anonComment.commit_id = none ∧ anonComment.commit_message = none) := by
  refine ⟨?_, ?_, ?_⟩
  · exact C2_commit_pairing.1 examplePage "unresolved" [bobComment] rfl bobComment (by decide)
  · exact (C2_commit_pairing.2 bobRecord bobComment rfl).1
      { oid := "abc1234567", message := "fix bug\nmore detail" } rfl
  · exact (C2_commit_pairing.2 anonRecord anonComment rfl).2 rfl

/-- Claim C4: the sequence `get_pr_comments` returns is the in-order
parse of the concatenation — pages in fetch order, threads in page order,
comments in thread order — of the included records of the pages actually
fetched; no reordering, sorting or deduplication. -/
theorem C4_order (pages : List PRData) (filter_type : String) (cs : List Comment) (n : Nat)
    (h : get_pr_comments pages filter_type = (Except.ok cs, n)) :
    parseCommentList (specFlattenOrder filter_type (pages.take n)) = Except.ok cs :=
  get_pr_comments_char h

/-- Witness for C4 on the one-page example. -/
theorem C4_witness :
    parseCommentList (specFlattenOrder "unresolved" (List.take 1 [examplePage])) =
      Except.ok [bobComment] :=
  C4_order [examplePage] "unresolved" [bobComment] 1 rfl

/-- Claim C5: a constructed `Comment` carries the author login when the
record has an author object and the literal string "unknown" when the
author object is null (no author present). -/
theorem C5_missing_author (r : CommentRecord) (c : Comment) (h : parseComment r = Except.ok c) :
    (r.author = none → c.author = "unknown") ∧
    (∀ a, r.author = some a → c.author = a.login) := by
  have hauthor : c.author = authorOf r := by
    unfold parseComment at h
    cases hoc : r.originalCommit with
    | null => rw [hoc] at h; cases h
    | absent => rw [hoc] at h; cases h; rfl
    | obj oc => rw [hoc] at h; cases h; rfl
  constructor
  · intro hnone
    rw [hauthor]
    unfold authorOf
    rw [hnone]
  · intro a ha
    rw [hauthor]
    unfold authorOf
    rw [ha]

/-- Witness for C5 on the anonymous record and on bob's record. -/
theorem C5_witness :
    anonComment.author = "unknown" ∧ bobComment.author = (Author.mk "bob").login :=
  ⟨(C5_missing_author anonRecord anonComment rfl).1 rfl,
   (C5_missing_author bobRecord bobComment rfl).2 (Author.mk "bob") rfl⟩

/-- Claim C9, amended: the flattener raises on a null `originalCommit`
exactly when the offending record sits in a thread the filter does not
skip; for such a record the whole parse is an error, not a comment
sequence. -/
theorem C9_null_commit_raises (p : PRData) (filter_type : String) (t : ReviewThread)
    (r : CommentRecord) (ht : t ∈ p.reviewThreads.nodes)
    (hs : skipThread filter_type t = false) (hr : r ∈ t.comments)
    (hoc : r.originalCommit = OriginalCommitField.null) :
    ∃ e, parse_response p filter_type = Except.error e := by
  have he : parseComment r =
      Except.error "AttributeError: NoneType object has no attribute get" := by
    unfold parseComment
    rw [hoc]
  obtain ⟨e1, h1⟩ := parseCommentList_error hr he
  exact parseThreads_error ht hs h1

/-- Witness for amended C9: the null-commit record in an unresolved
thread makes the flattener raise even under the unresolved filter. -/
theorem C9_witness : ∃ e, parse_response unresolvedNullPage "unresolved" = Except.error e :=
  C9_null_commit_raises unresolvedNullPage "unresolved" unresolvedNullThread nullCommitRecord
    (by decide) (by decide) (by decide) rfl

end PRComments

namespace PRComments

theorem skipThread_of_ne {filter_type : String} (h : filter_type ≠ "unresolved")
    (t : ReviewThread) : skipThread filter_type t = false := by
  unfold skipThread
  have hb : (filter_type == "unresolved") = false := by
    cases hb2 : filter_type == "unresolved"
    · rfl
    · exact absurd (eq_of_beq hb2) h
  rw [hb, Bool.false_and]

theorem skipThread_all (t : ReviewThread) : skipThread "all" t = false := by
  unfold skipThread
  have hb : (("all" : String) == "unresolved") = false := by decide
  rw [hb, Bool.false_and]

theorem parseThreads_filter_agnostic {filter_type : String} (h : filter_type ≠ "unresolved") :
    ∀ ts : List ReviewThread, parseThreads filter_type ts = parseThreads "all" ts := by
  intro ts
  induction ts with
  | nil => rfl
  | cons t ts ih =>
    rw [parseThreads, parseThreads, skipThread_of_ne h t, skipThread_all t]
    simp only [Bool.false_eq_true, if_false]
    rw [ih]

/-- Claim C10: the resolution check compares `filter_type` with the exact
string "unresolved", so any other filter string skips no thread and the
page output coincides with the `filter_type = "all"` output. -/
theorem C10_filter_fallthrough (p : PRData) (filter_type : String)
    (h : filter_type ≠ "unresolved") :
    parse_response p filter_type = parse_response p "all" :=
  parseThreads_filter_agnostic h p.reviewThreads.nodes

/-- Witness for C10 with the filter string "resolved". -/
theorem C10_witness :
    parse_response examplePage "resolved" = parse_response examplePage "all" :=
  C10_filter_fallthrough examplePage "resolved" (by decide)

/-- Claim C6: the top-level PR comments collection of the pages never
reaches the result: replacing it arbitrarily on every page changes
neither the flattened page output nor the loop's result, for any filter
mode and any responses. -/
theorem C6_top_level_ignored (pages : List PRData) (filter_type : String)
    (g : PRData → List TopCommentRecord) :
    get_pr_comments (pages.map (fun p => { p with comments := g p })) filter_type =
      get_pr_comments pages filter_type ∧
    ∀ p : PRData, parse_response { p with comments := g p } filter_type =
      parse_response p filter_type := by
  constructor
  · unfold get_pr_comments
    induction pages with
    | nil => rfl
    | cons p rest ih =>
      rw [List.map_cons, fetchLoop, fetchLoop]
      have hpr : parse_response { p with comments := g p } filter_type =
          parse_response p filter_type := rfl
      have hrc : review_cursor { p with comments := g p } = review_cursor p := rfl
      rw [hpr, hrc, ih]
  · intro p
    rfl

/-- Claim C3, amended: when each of the first pages reports
`hasNextPage = true` together with a non-null, non-empty `endCursor`, and
the next page reports `hasNextPage = false`, the loop fetches exactly
those pages — one request each — and stops, never touching further
scripted responses. -/
theorem C3_pagination (filter_type : String) (front : List PRData) (plast : PRData)
    (extra : List PRData)
    (hfront : ∀ p, p ∈ front → p.reviewThreads.pageInfo.hasNextPage = true ∧
      ∃ s, p.reviewThreads.pageInfo.endCursor = some s ∧ s ≠ "")
    (hlast : plast.reviewThreads.pageInfo.hasNextPage = false)
    (hparse : ∀ p, p ∈ front ++ plast :: extra →
      ∃ cs, parse_response p filter_type = Except.ok cs) :
    ∃ cs, get_pr_comments (front ++ plast :: extra) filter_type =
      (Except.ok cs, front.length + 1) := by
  revert hfront hparse
  induction front with
  | nil =>
    intro hfront hparse
    obtain ⟨cs, hcs⟩ := hparse plast (by simp)
    have ht : truthy (review_cursor plast) = false := by
      unfold review_cursor
      rw [hlast]
      rfl
    exact ⟨cs, by rw [List.nil_append, get_pr_comments, fetchLoop_stop extra hcs ht]; rfl⟩
  | cons p front ihf =>
    intro hfront hparse
    obtain ⟨hnp, s, hsc, hsne⟩ := hfront p (by simp)
    obtain ⟨cs0, hcs0⟩ := hparse p (by simp)
    have ht : truthy (review_cursor p) = true := by
      unfold review_cursor
      rw [hnp]
      simp only [if_true]
      rw [hsc]
      simp [truthy, hsne]
    obtain ⟨cs1, hcs1⟩ := ihf (fun q hq => hfront q (List.mem_cons_of_mem p hq))
      (fun q hq => hparse q (List.mem_cons_of_mem p hq))
    refine ⟨cs0 ++ cs1, ?_⟩
    rw [List.cons_append, get_pr_comments, fetchLoop_continue_ok hcs0 ht hcs1]
    rfl

/-- Witness for amended C3: a two-page script with a well-formed cursor
on the first page is consumed in exactly two requests. -/
theorem C3_witness :
    ∃ cs, get_pr_comments [cursorPage, finalPage] "unresolved" = (Except.ok cs, 2) :=
  C3_pagination "unresolved" [cursorPage] finalPage []
    (by
      intro p hp
      rw [List.mem_singleton] at hp
      subst hp
      exact ⟨rfl, "cursor1", rfl, by decide⟩)
    rfl
    (by
      intro p hp
      simp only [List.cons_append, List.nil_append, List.mem_cons, List.not_mem_nil,
        or_false] at hp
      rcases hp with rfl | rfl
      · exact ⟨[], rfl⟩
      · exact ⟨[], rfl⟩)

end PRComments
